import Mathlib

/-!
# Verification of the agent-configuration validator and loader

Shallow embedding of `codex-rs/verify_yaml_config.py` (the YAML
configuration checker) and of the task-manager sample in
`codex-rs/tests/fixtures/sample_code/python_sample.py`, together with
theorems settling the claims of the specification about them.
-/

set_option autoImplicit false

namespace AgCodex

/-! ## Document model

`verify_yaml_config` reads a parsed YAML mapping.  The fields the script
inspects are top-level scalars (strings), the `tools` sequence and the
`parameters` sequence.  Each is `Option`-valued: `none` models the key
being absent from the mapping (`field not in config`), `some v` the key
being present with value `v`.  String-typed fields carry `String`, which
is the shape every check in the script expects. -/

/-- One entry of the `tools` sequence: the script reads `name`,
`permission` and `restrictions`. -/
structure Tool where
  name : Option String
  permission : Option String
  restrictions : Option (List String)
deriving DecidableEq, Repr

/-- One entry of the `parameters` sequence: the script reads `name` and
`description`; other keys are ignored. -/
structure Param where
  name : Option String
  description : Option String
deriving DecidableEq, Repr

/-- A parsed agent-configuration document, with exactly the top-level keys
`verify_yaml_config` inspects.  `tags`, `file_patterns` and `metadata` are
only echoed to the console by the script, never validated. -/
structure Doc where
  name : Option String
  description : Option String
  prompt : Option String
  mode_override : Option String
  intelligence : Option String
  tools : Option (List Tool)
  parameters : Option (List Param)
  tags : Option (List String)
  file_patterns : Option (List String)
deriving DecidableEq, Repr

/-- A structured reference to the field a violation is about.  The script
prints free-form messages; each print site determines the field (and, for
the ❌ messages inside the `tools` / `parameters` loops, the loop position
identifies the offending entry, which we record as the index). -/
inductive FieldRef where
  | name
  | description
  | prompt
  | mode_override
  | intelligence
  | toolName (i : Nat)
  | toolPermission (i : Nat)
  | paramName (i : Nat)
  | paramDescription (i : Nat)
deriving DecidableEq, Repr

/-- The violation taxonomy of the specification (§7).  The prints of the
script reading `Missing required field` / `missing name field` are
`MissingField`; its `Invalid ...` prints are `InvalidEnum`.  `EmptyField`
is in the taxonomy of the spec; whether the code ever emits it is settled
by the theorems below. -/
inductive Violation where
  | MissingField (field : FieldRef)
  | EmptyField (field : FieldRef)
  | InvalidEnum (field : FieldRef) (value : String) (allowed : List String)
deriving DecidableEq, Repr

/-! ## The validator

`verify_yaml_config` prints one ❌ line and `return False` at the first
problem it finds; on success it prints ✅ and returns `True`.  We model
its outcome as the (possibly empty) list of ❌ violations it reported
together with the returned boolean.  Because every failing branch is an
immediate `return False`, the function reports the first violation in
check order and nothing after it. -/

/-- `field not in config or not config[field]`: the required-field test.
For a string value, the Python test `not s` is true exactly for the empty
string, so a whitespace-only string passes the check. -/
def reqFieldBad : Option String → Bool
  | none => true
  | some s => s == ""

/-- The required-fields loop (`for field in [name, description, prompt]`):
first field failing `field not in config or not config[field]` yields the
`Missing required field` message. -/
def requiredViolation (d : Doc) : Option Violation :=
  if reqFieldBad d.name then some (.MissingField .name)
  else if reqFieldBad d.description then some (.MissingField .description)
  else if reqFieldBad d.prompt then some (.MissingField .prompt)
  else none

/-- `valid_modes`: the list of the three mode names in the script. -/
def validModes : List String := ["plan", "build", "review"]

/-- `valid_levels`: the list of the three intelligence tiers in the script. -/
def validLevels : List String := ["light", "medium", "hard"]

/-- The allowed `permission` values for a tool in the script. -/
def validPermissions : List String := ["allow", "deny", "restricted"]

/-- The `mode_override in config` check against `valid_modes`. -/
def modeViolation (d : Doc) : Option Violation :=
  match d.mode_override with
  | none => none
  | some v =>
    if v ∈ validModes then none
    else some (.InvalidEnum .mode_override v validModes)

/-- The `intelligence in config` check against `valid_levels`. -/
def intelligenceViolation (d : Doc) : Option Violation :=
  match d.intelligence with
  | none => none
  | some v =>
    if v ∈ validLevels then none
    else some (.InvalidEnum .intelligence v validLevels)

/-- The `for tool in config[tools]` loop: each entry must have a `name`
(checked first, immediate `return False` if absent) and, when `permission`
is present, its value must be in `validPermissions`.  The
`restricted` / `restrictions` branch only builds a display string, so it
can produce no violation. -/
def toolViolation (i : Nat) : List Tool → Option Violation
  | [] => none
  | t :: rest =>
    match t.name with
    | none => some (.MissingField (.toolName i))
    | some _ =>
      match t.permission with
      | none => toolViolation (i + 1) rest
      | some p =>
        if p ∈ validPermissions then toolViolation (i + 1) rest
        else some (.InvalidEnum (.toolPermission i) p validPermissions)

/-- The `for param in config[parameters]` loop: each entry must have
`name` and `description` (checked in that order, immediate `return False`
on the first missing one). -/
def paramViolation (i : Nat) : List Param → Option Violation
  | [] => none
  | p :: rest =>
    match p.name with
    | none => some (.MissingField (.paramName i))
    | some _ =>
      match p.description with
      | none => some (.MissingField (.paramDescription i))
      | some _ => paramViolation (i + 1) rest

/-- The first violation `verify_yaml_config` encounters, in the check
order of the script: required fields, `mode_override`, `intelligence`,
`tools`, `parameters`.  Absent `tools` / `parameters` keys skip their
loops, identically to looping over an empty sequence. -/
def firstViolation (d : Doc) : Option Violation :=
  match requiredViolation d with
  | some v => some v
  | none =>
    match modeViolation d with
    | some v => some v
    | none =>
      match intelligenceViolation d with
      | some v => some v
      | none =>
        match toolViolation 0 (d.tools.getD []) with
        | some v => some v
        | none => paramViolation 0 (d.parameters.getD [])

/-- `verify_yaml_config(file_path)`, after parsing: the list of ❌
violations it printed and the returned boolean.  Every failing check is
an immediate `return False`, so the report is `([v], false)` for the
first violation `v`, and `([], true)` when all checks pass. -/
def verify_yaml_config (d : Doc) : List Violation × Bool :=
  match firstViolation d with
  | some v => ([v], false)
  | none => ([], true)

/-! ## Discovery and the scan loop of `main`

`main` collects `example_dir.glob("*.yaml")` followed by
`example_dir.glob("*.yml")` and runs `verify_yaml_config` on each file,
and-ing the results into `all_valid`.  `yaml.safe_load` is called with no
`try`: a parse failure propagates out of the loop.  We model a directory
as its list of file names, and a file submitted to the scan by the
outcome of parsing it (`Except.error` for a raised `yaml.YAMLError`,
`Except.ok` for a parsed document). -/

/-- A file name matches the glob pattern `*.<ext>` exactly when it ends
with `.<ext>` (stated on the character lists underlying the strings). -/
def hasSuffix (f ext : String) : Bool := ext.data.isSuffixOf f.data

/-- `list(example_dir.glob("*.yaml")) + list(example_dir.glob("*.yml"))`:
the only two patterns `main` globs for. -/
def discover (files : List String) : List String :=
  files.filter (fun f => hasSuffix f ".yaml") ++ files.filter (fun f => hasSuffix f ".yml")

/-- The `for yaml_file in yaml_files` loop body carrying `all_valid`:
a document that parsed is validated and its boolean and-ed in; a parse
error is an uncaught exception that aborts the loop (and `main`) at once,
leaving the remaining files unprocessed. -/
def scanFrom (all_valid : Bool) : List (Except String Doc) → Except String Bool
  | [] => .ok all_valid
  | f :: rest =>
    match f with
    | .error e => .error e
    | .ok d => scanFrom (all_valid && (verify_yaml_config d).2) rest

/-- The whole scan: `all_valid = True` then the loop. -/
def scanFiles (fs : List (Except String Doc)) : Except String Bool :=
  scanFrom true fs

/-! ## Scope resolver (not present in the source tree)

`main` only prints that "Project configs override global configs"; the
merge itself lives in the Rust implementation, which is not among the
source files.  We model it from the spec. -/

/-- Provenance of a merged entry (spec §3: `origin`). -/
inductive Origin where
  | global
  | project
deriving DecidableEq, Repr

/-- The agent name keying a document in the merged mapping. -/
def docName (d : Doc) : String := d.name.getD ""

/-- Insert into a name-keyed association list: replace the existing entry
with the same key in place, else append. -/
def insertEntry (m : List (String × Doc × Origin)) (k : String) (v : Doc × Origin) :
    List (String × Doc × Origin) :=
  if m.any (fun e => e.1 == k) then
    m.map (fun e => if e.1 == k then (k, v) else e)
  else m ++ [(k, v)]

/-- Modelled from the spec: the merge rule of the Scope Resolver (§4.4), whose
implementation is absent from the source files (only described by prints
in `main`): "build a name-keyed mapping; insert global-scope entries
first, then project-scope entries.  A project-scope entry with the same
`name` as an existing global-scope entry replaces it entirely (no
field-level merging)", each entry tagged with its resolved `origin`. -/
def mergeScopes (globals projects : List Doc) : List (String × Doc × Origin) :=
  let m := globals.foldl (fun m d => insertEntry m (docName d) (d, .global)) []
  projects.foldl (fun m d => insertEntry m (docName d) (d, .project)) m

/-! ## The task-manager sample

`tests/fixtures/sample_code/python_sample.py`: a `Task` dataclass and a
`TaskManager` holding a `Dict[str, Task]`.  The dict is modelled as an
association list with Python-dict update semantics: assigning an existing
key updates the entry in place, a new key is appended (insertion order).
`created_at` is a timestamp, modelled as a `Nat`; `metadata` values are
arbitrary, modelled as strings (no operation inspects them). -/

structure Task where
  id : String
  title : String
  completed : Bool
  created_at : Nat
  tags : List String
  metadata : List (String × String)
deriving DecidableEq, Repr

/-- `self.completed = True`. -/
def Task.mark_completed (t : Task) : Task := { t with completed := true }

/-- `if tag not in self.tags: self.tags.append(tag)`. -/
def Task.add_tag (t : Task) (tag : String) : Task :=
  if tag ∈ t.tags then t else { t with tags := t.tags ++ [tag] }

/-- `if tag in self.tags: self.tags.remove(tag)` — `list.remove` drops the
first occurrence only. -/
def Task.remove_tag (t : Task) (tag : String) : Task :=
  if tag ∈ t.tags then { t with tags := t.tags.erase tag } else t

structure TaskManager where
  tasks : List (String × Task)
deriving DecidableEq, Repr

/-- `task_id in self.tasks` (dict key membership). -/
def TaskManager.contains (m : TaskManager) (task_id : String) : Bool :=
  m.tasks.any (fun e => e.1 == task_id)

/-- `self.tasks[task.id] = task`: update in place when the key exists,
else append. -/
def TaskManager.add_task (m : TaskManager) (t : Task) : TaskManager :=
  if m.contains t.id then
    ⟨m.tasks.map (fun e => if e.1 == t.id then (t.id, t) else e)⟩
  else ⟨m.tasks ++ [(t.id, t)]⟩

/-- `self.tasks.get(task_id)`. -/
def TaskManager.get_task (m : TaskManager) (task_id : String) : Option Task :=
  (m.tasks.find? (fun e => e.1 == task_id)).map (fun e => e.2)

/-- `remove_task`: `if task_id in self.tasks: del self.tasks[task_id];
return True` else `return False`.  Returns the new state and the
boolean. -/
def TaskManager.remove_task (m : TaskManager) (task_id : String) : TaskManager × Bool :=
  if m.contains task_id then
    (⟨m.tasks.filter (fun e => !(e.1 == task_id))⟩, true)
  else (m, false)

/-- `self.tasks.values()`. -/
def TaskManager.values (m : TaskManager) : List Task := m.tasks.map (fun e => e.2)

/-- The dictionary `get_stats` returns, with its three keys. -/
structure Stats where
  total : Nat
  completed : Nat
  pending : Nat
deriving DecidableEq, Repr

/-- `get_stats`: `total = len(self.tasks)`, `completed = sum(1 for task in
self.tasks.values() if task.completed)`, `pending = total - completed`
(`completed ≤ total` always holds, so natural subtraction is exact). -/
def TaskManager.get_stats (m : TaskManager) : Stats :=
  let total := m.tasks.length
  let completed := m.values.countP (fun t => t.completed)
  let pending := total - completed
  ⟨total, completed, pending⟩

/-! ## Concrete documents and states used by the claims -/

/-- A document with all three required fields present and non-empty and
nothing else: the minimal valid document of the spec. -/
def minimalValidDoc : Doc :=
  { name := some "a", description := some "b", prompt := some "c",
    mode_override := none, intelligence := none, tools := none,
    parameters := none, tags := none, file_patterns := none }

/-- The spec §8 scenario file restricted to its tool entry, placed in an
otherwise-valid document: `tools: [{permission: "maybe"}]` — the single
tool entry lacks `name` and has an invalid `permission`. -/
def scenarioToolDoc : Doc :=
  { minimalValidDoc with tools := some [⟨none, some "maybe", none⟩] }

/-- A document whose `name` is a whitespace-only string. -/
def blankNameDoc : Doc := { minimalValidDoc with name := some " " }

/-- A document whose `name` is present but the empty string. -/
def emptyNameDoc : Doc := { minimalValidDoc with name := some "" }

/-- A document missing `name` and carrying an invalid `mode_override`. -/
def noNameBadModeDoc : Doc :=
  { minimalValidDoc with name := none, mode_override := some "turbo" }

/-- A valid document except for `mode_override: turbo`. -/
def badModeDoc : Doc := { minimalValidDoc with mode_override := some "turbo" }

/-- Global-scope `reviewer` document (`intelligence: hard`), spec §8. -/
def reviewerGlobal : Doc :=
  { minimalValidDoc with name := some "reviewer", intelligence := some "hard" }

/-- Project-scope `reviewer` document (`intelligence: light`), spec §8. -/
def reviewerProject : Doc :=
  { minimalValidDoc with name := some "reviewer", intelligence := some "light" }

/-- A task as built in `example_usage`. -/
def sampleTask : Task :=
  { id := "1", title := "Learn Python", completed := false,
    created_at := 0, tags := ["learning", "programming"], metadata := [] }

/-- A manager holding `sampleTask`. -/
def sampleManager : TaskManager := ⟨[("1", sampleTask)]⟩

/-- A task whose constructor-supplied tag list already holds a
duplicate (the `Task` dataclass accepts any `tags` list). -/
def dupTagTask : Task :=
  { id := "2", title := "t", completed := false,
    created_at := 0, tags := ["a", "a"], metadata := [] }

/-! ## Structure lemmas about the validator -/

/-- A violation is reported exactly when it is the first one found. -/
theorem mem_verify_iff (d : Doc) (v : Violation) :
    v ∈ (verify_yaml_config d).1 ↔ firstViolation d = some v := by
  unfold verify_yaml_config
  cases h : firstViolation d <;> simp [eq_comm]

/-- `verify_yaml_config` returns `True` exactly when no check fires. -/
theorem verify_success_iff (d : Doc) :
    (verify_yaml_config d).2 = true ↔ firstViolation d = none := by
  unfold verify_yaml_config
  cases h : firstViolation d <;> simp

/-- The required-fields loop only ever emits `MissingField` for one of
the three required fields. -/
theorem requiredViolation_shape (d : Doc) (v : Violation)
    (h : requiredViolation d = some v) :
    v = .MissingField .name ∨ v = .MissingField .description ∨ v = .MissingField .prompt := by
  unfold requiredViolation at h
  split_ifs at h <;> simp_all

/-- The `mode_override` check only fires on a present, invalid value,
and then emits exactly the `InvalidEnum` citing it. -/
theorem modeViolation_shape (d : Doc) (v : Violation)
    (h : modeViolation d = some v) :
    ∃ val, d.mode_override = some val ∧ val ∉ validModes ∧
      v = .InvalidEnum .mode_override val validModes := by
  unfold modeViolation at h
  cases hm : d.mode_override with
  | none => simp [hm] at h
  | some val =>
    simp [hm] at h
    exact ⟨val, rfl, h.1, h.2.symm⟩

/-- The `intelligence` check only fires on a present, invalid value. -/
theorem intelligenceViolation_shape (d : Doc) (v : Violation)
    (h : intelligenceViolation d = some v) :
    ∃ val, d.intelligence = some val ∧ val ∉ validLevels ∧
      v = .InvalidEnum .intelligence val validLevels := by
  unfold intelligenceViolation at h
  cases hm : d.intelligence with
  | none => simp [hm] at h
  | some val =>
    simp [hm] at h
    exact ⟨val, rfl, h.1, h.2.symm⟩

/-- The tools loop only emits a missing tool name or an invalid
permission. -/
theorem toolViolation_shape (i : Nat) (ts : List Tool) (v : Violation)
    (h : toolViolation i ts = some v) :
    (∃ j, v = .MissingField (.toolName j)) ∨
    (∃ j p, v = .InvalidEnum (.toolPermission j) p validPermissions) := by
  induction ts generalizing i with
  | nil => simp [toolViolation] at h
  | cons t rest ih =>
    unfold toolViolation at h
    cases hn : t.name with
    | none => simp [hn] at h; exact Or.inl ⟨i, h.symm⟩
    | some nm =>
      cases hp : t.permission with
      | none => simp [hn, hp] at h; exact ih (i + 1) h
      | some p =>
        simp [hn, hp] at h
        split_ifs at h with hmem
        · exact ih (i + 1) h
        · cases h
          exact Or.inr ⟨i, p, rfl⟩

/-- The parameters loop only emits missing parameter names or
descriptions. -/
theorem paramViolation_shape (i : Nat) (ps : List Param) (v : Violation)
    (h : paramViolation i ps = some v) :
    (∃ j, v = .MissingField (.paramName j)) ∨
    (∃ j, v = .MissingField (.paramDescription j)) := by
  induction ps generalizing i with
  | nil => simp [paramViolation] at h
  | cons p rest ih =>
    unfold paramViolation at h
    cases hn : p.name with
    | none => simp [hn] at h; exact Or.inl ⟨i, h.symm⟩
    | some nm =>
      cases hd : p.description with
      | none => simp [hn, hd] at h; exact Or.inr ⟨i, h.symm⟩
      | some dsc => simp [hn, hd] at h; exact ih (i + 1) h

/-- The script finds no violation exactly when every check passes. -/
theorem firstViolation_none_iff (d : Doc) :
    firstViolation d = none ↔
      requiredViolation d = none ∧ modeViolation d = none ∧
      intelligenceViolation d = none ∧ toolViolation 0 (d.tools.getD []) = none ∧
      paramViolation 0 (d.parameters.getD []) = none := by
  unfold firstViolation
  cases h1 : requiredViolation d <;> simp [h1]
  cases h2 : modeViolation d <;> simp [h2]
  cases h3 : intelligenceViolation d <;> simp [h3]
  cases h4 : toolViolation 0 (d.tools.getD []) <;> simp [h4]

/-- Every violation the script can report is a `MissingField` or an
`InvalidEnum`; in particular no check emits `EmptyField`. -/
theorem firstViolation_shape (d : Doc) (v : Violation)
    (h : firstViolation d = some v) :
    (∃ f, v = .MissingField f) ∨ (∃ f val allowed, v = .InvalidEnum f val allowed) := by
  unfold firstViolation at h
  cases h1 : requiredViolation d with
  | some w =>
    rw [h1] at h; injection h with h; subst h
    rcases requiredViolation_shape d _ h1 with h' | h' | h' <;> exact Or.inl ⟨_, h'⟩
  | none =>
  rw [h1] at h
  cases h2 : modeViolation d with
  | some w =>
    rw [h2] at h; injection h with h; subst h
    obtain ⟨val, -, -, h'⟩ := modeViolation_shape d _ h2
    exact Or.inr ⟨_, _, _, h'⟩
  | none =>
  rw [h2] at h
  cases h3 : intelligenceViolation d with
  | some w =>
    rw [h3] at h; injection h with h; subst h
    obtain ⟨val, -, -, h'⟩ := intelligenceViolation_shape d _ h3
    exact Or.inr ⟨_, _, _, h'⟩
  | none =>
  rw [h3] at h
  cases h4 : toolViolation 0 (d.tools.getD []) with
  | some w =>
    rw [h4] at h; injection h with h; subst h
    rcases toolViolation_shape 0 _ _ h4 with ⟨j, h'⟩ | ⟨j, p, h'⟩
    · exact Or.inl ⟨_, h'⟩
    · exact Or.inr ⟨_, _, _, h'⟩
  | none =>
  rw [h4] at h
  rcases paramViolation_shape 0 _ v h with ⟨j, h'⟩ | ⟨j, h'⟩ <;> exact Or.inl ⟨_, h'⟩

/-- Only the `mode_override` check can report a violation whose field is
`mode_override`. -/
theorem firstViolation_mode_only (d : Doc) (x : String) (a : List String)
    (h : firstViolation d = some (.InvalidEnum .mode_override x a)) :
    modeViolation d = some (.InvalidEnum .mode_override x a) := by
  unfold firstViolation at h
  cases h1 : requiredViolation d with
  | some w =>
    rw [h1] at h; injection h with h; subst h
    rcases requiredViolation_shape d _ h1 with h' | h' | h' <;> simp at h'
  | none =>
  rw [h1] at h
  cases h2 : modeViolation d with
  | some w => rw [h2] at h; injection h with h; subst h; rfl
  | none =>
  rw [h2] at h
  exfalso
  cases h3 : intelligenceViolation d with
  | some w =>
    rw [h3] at h; injection h with h; subst h
    obtain ⟨val, -, -, h'⟩ := intelligenceViolation_shape d _ h3
    simp at h'
  | none =>
  rw [h3] at h
  cases h4 : toolViolation 0 (d.tools.getD []) with
  | some w =>
    rw [h4] at h; injection h with h; subst h
    rcases toolViolation_shape 0 _ _ h4 with ⟨j, h'⟩ | ⟨j, p, h'⟩ <;> simp at h'
  | none =>
  rw [h4] at h
  rcases paramViolation_shape 0 _ _ h with ⟨j, h'⟩ | ⟨j, h'⟩ <;> simp at h'

/-- The scan loop over successfully parsed documents always completes,
and-ing the per-file results into the accumulator. -/
theorem scanFrom_map_ok (b : Bool) (docs : List Doc) :
    scanFrom b (docs.map Except.ok) =
      .ok (b && docs.all (fun d => (verify_yaml_config d).2)) := by
  induction docs generalizing b with
  | nil => simp [scanFrom]
  | cons d rest ih => simp [scanFrom, ih, Bool.and_assoc]

/-- Appending a tool entry that has a name and a valid (or absent)
permission preserves an all-clear tools check. -/
theorem toolViolation_append_none (i : Nat) (ts : List Tool) (t : Tool)
    (hname : t.name.isSome = true)
    (hperm : ∀ p, t.permission = some p → p ∈ validPermissions)
    (h : toolViolation i ts = none) :
    toolViolation i (ts ++ [t]) = none := by
  induction ts generalizing i with
  | nil =>
    cases hn : t.name with
    | none => simp [hn] at hname
    | some nm =>
      cases hp : t.permission with
      | none => simp [toolViolation, hn, hp]
      | some p => simp [toolViolation, hn, hp, hperm p hp]
  | cons u rest ih =>
    rw [List.cons_append]
    unfold toolViolation at h ⊢
    cases hn : u.name with
    | none => simp [hn] at h
    | some nm =>
      cases hp : u.permission with
      | none =>
        simp only [hn, hp] at h ⊢
        exact ih (i + 1) h
      | some p =>
        simp only [hn, hp] at h ⊢
        split_ifs at h ⊢ with hm
        exact ih (i + 1) h

/-! ## The claims -/

/-- C1: counterexample.  On a document whose `tools[0]` entry lacks
`name` and has `permission` `maybe`, the script reports the missing tool
name but not the invalid permission: it returned `False` at the first
problem instead of accumulating all violations. -/
theorem c1_counterexample_only_first_reported :
    Violation.MissingField (FieldRef.toolName 0) ∈ (verify_yaml_config scenarioToolDoc).1 ∧
    Violation.InvalidEnum (FieldRef.toolPermission 0) "maybe" validPermissions ∉
      (verify_yaml_config scenarioToolDoc).1 := by decide

/-- C1 (amended): validation short-circuits — it reports at most one
violation, the first found in rule order; on the scenario document it
reports exactly the missing `tools[0].name` and fails, never reaching
the invalid permission. -/
theorem c1_validation_short_circuits :
    (∀ d : Doc, (verify_yaml_config d).1.length ≤ 1) ∧
    verify_yaml_config scenarioToolDoc = ([Violation.MissingField (FieldRef.toolName 0)], false) := by
  refine ⟨fun d => ?_, by decide⟩
  unfold verify_yaml_config
  cases firstViolation d <;> simp

/-- C2: for a global file and a project file sharing the same agent
name, the merged mapping holds exactly one entry for that name, carrying
the project document in full (no field-level merging) with origin
`project`.  (Scope Resolver modelled from the spec.) -/
theorem c2_project_overrides (g p : Doc) (h : docName g = docName p) :
    mergeScopes [g] [p] = [(docName p, (p, Origin.project))] := by
  simp [mergeScopes, insertEntry, h]

/-- C2 witness: the spec §8 `reviewer` scenario — the merge of the
global `reviewer` (intelligence `hard`) with the project `reviewer`
(intelligence `light`) is the single project-tagged entry. -/
theorem c2_witness :
    mergeScopes [reviewerGlobal] [reviewerProject] =
      [(docName reviewerProject, (reviewerProject, Origin.project))] :=
  c2_project_overrides reviewerGlobal reviewerProject rfl

/-- C3: counterexample.  A file whose parse fails aborts the scan: the
uncaught exception from `yaml.safe_load` propagates out of the loop,
even though the remaining file on its own would scan successfully. -/
theorem c3_parse_error_halts_scan :
    scanFiles [Except.error "bad", Except.ok minimalValidDoc] = Except.error "bad" ∧
    scanFiles [Except.ok minimalValidDoc] = Except.ok true := ⟨rfl, rfl⟩

/-- C3 (amended): validation failures never halt the scan — over any
list of successfully parsed documents the scan completes, returning the
conjunction of the per-file results — but a parse error raises an
uncaught exception that halts the scan at once. -/
theorem c3_scan_recovery :
    (∀ docs : List Doc, scanFiles (docs.map Except.ok) =
        Except.ok (docs.all (fun d => (verify_yaml_config d).2))) ∧
    (∀ (e : String) (rest : List (Except String Doc)),
        scanFiles (Except.error e :: rest) = Except.error e) := by
  refine ⟨fun docs => ?_, fun e rest => rfl⟩
  unfold scanFiles
  rw [scanFrom_map_ok]
  simp

/-- C4 (amended): a required field that is absent or the empty string
makes validation fail with `MissingField` naming the first such field in
order `name`, `description`, `prompt`; the script never emits a distinct
`EmptyField` violation (and whitespace-only strings pass the check). -/
theorem c4_required_field_checks (d : Doc) :
    (reqFieldBad d.name = true →
        verify_yaml_config d = ([Violation.MissingField FieldRef.name], false)) ∧
    (reqFieldBad d.name = false → reqFieldBad d.description = true →
        verify_yaml_config d = ([Violation.MissingField FieldRef.description], false)) ∧
    (reqFieldBad d.name = false → reqFieldBad d.description = false →
        reqFieldBad d.prompt = true →
        verify_yaml_config d = ([Violation.MissingField FieldRef.prompt], false)) ∧
    (∀ f : FieldRef, Violation.EmptyField f ∉ (verify_yaml_config d).1) := by
  refine ⟨fun h1 => ?_, fun h1 h2 => ?_, fun h1 h2 h3 => ?_, fun f hmem => ?_⟩
  · simp [verify_yaml_config, firstViolation, requiredViolation, h1]
  · simp [verify_yaml_config, firstViolation, requiredViolation, h1, h2]
  · simp [verify_yaml_config, firstViolation, requiredViolation, h1, h2, h3]
  · rw [mem_verify_iff] at hmem
    rcases firstViolation_shape d _ hmem with ⟨g, h'⟩ | ⟨g, val, allowed, h'⟩ <;> simp at h'

/-- C4: counterexample.  A whitespace-only `name` passes validation
outright (Python truthiness), and an empty-string `name` is reported as
`MissingField`, not as a distinct `EmptyField`. -/
theorem c4_counterexample_blank_and_empty :
    verify_yaml_config blankNameDoc = ([], true) ∧
    verify_yaml_config emptyNameDoc = ([Violation.MissingField FieldRef.name], false) ∧
    Violation.EmptyField FieldRef.name ∉ (verify_yaml_config emptyNameDoc).1 := by decide

/-- C4 witness: a document missing `description` fails with
`MissingField description`, and the minimal valid document never
carries an `EmptyField prompt` violation. -/
theorem c4_witness :
    verify_yaml_config { minimalValidDoc with description := none } =
      ([Violation.MissingField FieldRef.description], false) ∧
    Violation.EmptyField FieldRef.prompt ∉ (verify_yaml_config minimalValidDoc).1 :=
  ⟨(c4_required_field_checks { minimalValidDoc with description := none }).2.1
      (by decide) (by decide),
   (c4_required_field_checks minimalValidDoc).2.2.2 FieldRef.prompt⟩

/-- C5: counterexample.  A `.toml` file in the scanned directory is not
discovered: `main` only globs `*.yaml` and `*.yml`. -/
theorem c5_counterexample_toml_not_discovered :
    "a.toml" ∈ ["a.toml", "b.yaml"] ∧ "a.toml" ∉ discover ["a.toml", "b.yaml"] := by decide

/-- C5 (amended): discovery recognizes exactly the `.yaml` and `.yml`
extensions — a file is discovered iff it is in the directory and carries
one of those two suffixes; `.toml` files are never discovered (the mixed
TOML and YAML support is only asserted about the Rust implementation in
a console print). -/
theorem c5_discovery_exts (files : List String) (f : String) :
    f ∈ discover files ↔
      f ∈ files ∧ (hasSuffix f ".yaml" = true ∨ hasSuffix f ".yml" = true) := by
  unfold discover
  simp [List.mem_filter, and_or_left]

/-- C5 witness: a `.yaml` file next to a `.toml` file is discovered. -/
theorem c5_witness : "b.yaml" ∈ discover ["a.toml", "b.yaml"] :=
  (c5_discovery_exts ["a.toml", "b.yaml"] "b.yaml").2 ⟨by decide, Or.inl (by decide)⟩

/-- C6 (amended): provided the required-field checks pass, a present
`mode_override` outside `plan`/`build`/`review` makes validation fail
with the `InvalidEnum` citing the value and the allowed set; and for any
document whose `mode_override` is absent or valid, no `mode_override`
violation is ever produced. -/
theorem c6_mode_override_checks (d : Doc) :
    (∀ v : String, requiredViolation d = none → d.mode_override = some v →
        v ∉ validModes →
        verify_yaml_config d =
          ([Violation.InvalidEnum FieldRef.mode_override v validModes], false)) ∧
    ((d.mode_override = none ∨ ∃ v, d.mode_override = some v ∧ v ∈ validModes) →
        ∀ (x : String) (a : List String),
          Violation.InvalidEnum FieldRef.mode_override x a ∉ (verify_yaml_config d).1) := by
  constructor
  · intro v h1 h2 h3
    simp [verify_yaml_config, firstViolation, h1, modeViolation, h2, h3]
  · intro hok x a hmem
    rw [mem_verify_iff] at hmem
    have hmode := firstViolation_mode_only d x a hmem
    rcases hok with hnone | ⟨v, hv, hvmem⟩
    · simp [modeViolation, hnone] at hmode
    · simp [modeViolation, hv, hvmem] at hmode

/-- C6: counterexample.  On a document that both lacks `name` and has
`mode_override` `turbo`, validation fails with the missing-name
violation only — no `InvalidEnum` for `mode_override` is reported,
because the script already returned at the required-field check. -/
theorem c6_counterexample_missing_name_masks_mode :
    noNameBadModeDoc.mode_override = some "turbo" ∧
    "turbo" ∉ validModes ∧
    (verify_yaml_config noNameBadModeDoc).2 = false ∧
    Violation.InvalidEnum FieldRef.mode_override "turbo" validModes ∉
      (verify_yaml_config noNameBadModeDoc).1 := by decide

/-- C6 witness: an otherwise-valid document with `mode_override` `turbo`
fails with exactly the `InvalidEnum`, and the minimal valid document
carries no `mode_override` violation. -/
theorem c6_witness :
    verify_yaml_config badModeDoc =
      ([Violation.InvalidEnum FieldRef.mode_override "turbo" validModes], false) ∧
    Violation.InvalidEnum FieldRef.mode_override "plan" validModes ∉
      (verify_yaml_config minimalValidDoc).1 :=
  ⟨(c6_mode_override_checks badModeDoc).1 "turbo" (by decide) rfl (by decide),
   (c6_mode_override_checks minimalValidDoc).2 (Or.inl rfl) "plan" validModes⟩

/-- C7: appending a tool entry that has a `name`, `permission`
`restricted` and no `restrictions` field to any document that validates
successfully leaves it validating successfully — restrictions are
optional even under restricted permission. -/
theorem c7_restricted_without_restrictions_ok (d : Doc) (nm : String)
    (h : (verify_yaml_config d).2 = true) :
    (verify_yaml_config
      { d with tools := some (d.tools.getD [] ++
          [{ name := some nm, permission := some "restricted", restrictions := none }]) }).2
      = true := by
  rw [verify_success_iff] at h ⊢
  rw [firstViolation_none_iff] at h ⊢
  obtain ⟨h1, h2, h3, h4, h5⟩ := h
  refine ⟨h1, h2, h3, ?_, h5⟩
  exact toolViolation_append_none 0 (d.tools.getD [])
    { name := some nm, permission := some "restricted", restrictions := none }
    rfl (fun p hp => by injection hp with hp; subst hp; decide) h4

/-- C7 witness: the minimal valid document extended with a restricted
tool lacking `restrictions` still validates. -/
theorem c7_witness :
    (verify_yaml_config
      { minimalValidDoc with tools := some (minimalValidDoc.tools.getD [] ++
          [{ name := some "grep", permission := some "restricted", restrictions := none }]) }).2
      = true :=
  c7_restricted_without_restrictions_ok minimalValidDoc "grep" (by decide)

/-- C8: `remove_task` returns `True` iff the id was present; afterwards
the id is absent from the manager; and a `False` return leaves the task
map unchanged. -/
theorem c8_remove_task_spec (m : TaskManager) (task_id : String) :
    ((m.remove_task task_id).2 = true ↔ m.contains task_id = true) ∧
    (m.remove_task task_id).1.contains task_id = false ∧
    ((m.remove_task task_id).2 = false → (m.remove_task task_id).1 = m) := by
  by_cases h : (m.tasks.any fun e => e.1 == task_id) = true
  · refine ⟨by simp [TaskManager.remove_task, TaskManager.contains, h], ?_,
      by simp [TaskManager.remove_task, TaskManager.contains, h]⟩
    simp [TaskManager.remove_task, TaskManager.contains, h, List.any_eq_true,
      List.mem_filter]
  · have h' : (m.tasks.any fun e => e.1 == task_id) = false := by
      cases hc : m.tasks.any fun e => e.1 == task_id
      · rfl
      · exact absurd hc h
    refine ⟨by simp [TaskManager.remove_task, TaskManager.contains, h'], ?_,
      by simp [TaskManager.remove_task, TaskManager.contains, h']⟩
    simp [TaskManager.remove_task, TaskManager.contains, h']

/-- C8 witness: removing an absent id from the sample manager leaves it
unchanged; removing the present id returns `True` and leaves the id
absent. -/
theorem c8_witness :
    (sampleManager.remove_task "2").1 = sampleManager ∧
    (sampleManager.remove_task "1").1.contains "1" = false ∧
    (sampleManager.remove_task "1").2 = true :=
  ⟨(c8_remove_task_spec sampleManager "2").2.2 (by decide),
   (c8_remove_task_spec sampleManager "1").2.1,
   (c8_remove_task_spec sampleManager "1").1.mpr (by decide)⟩

/-- C9 (amended): `add_tag` of an absent tag appends it so it then
occurs exactly once; `add_tag` of a present tag leaves the task
unchanged; hence `add_tag` is idempotent.  (A tag already duplicated by
the constructor stays duplicated — see the counterexample.) -/
theorem c9_add_tag_spec (t : Task) (tag : String) :
    (tag ∉ t.tags → (t.add_tag tag).tags.count tag = 1) ∧
    (tag ∈ t.tags → t.add_tag tag = t) ∧
    (t.add_tag tag).add_tag tag = t.add_tag tag := by
  by_cases h : tag ∈ t.tags
  · refine ⟨fun hc => absurd h hc, fun _ => by simp [Task.add_tag, h], ?_⟩
    simp [Task.add_tag, h]
  · refine ⟨fun _ => ?_, fun hc => absurd hc h, ?_⟩
    · simp [Task.add_tag, h, List.count_append, List.count_eq_zero.mpr h]
    · simp [Task.add_tag, h, List.mem_append]

/-- C9: counterexample.  On a task constructed with `tags` `["a", "a"]`,
`add_tag "a"` leaves the duplicate in place: the tag then occurs twice,
not exactly once. -/
theorem c9_counterexample_preexisting_duplicate :
    (dupTagTask.add_tag "a").tags = ["a", "a"] ∧
    (dupTagTask.add_tag "a").tags.count "a" ≠ 1 := by decide

/-- C9 witness: adding a fresh tag to the sample task makes it occur
exactly once, and re-adding a present tag changes nothing. -/
theorem c9_witness :
    (sampleTask.add_tag "testing").tags.count "testing" = 1 ∧
    sampleTask.add_tag "learning" = sampleTask :=
  ⟨(c9_add_tag_spec sampleTask "testing").1 (by decide),
   (c9_add_tag_spec sampleTask "learning").2.1 (by decide)⟩

/-- C10: `get_stats` reports `total` as the number of stored tasks,
`completed` as the number of stored tasks with `completed` true, and the
three fields satisfy `total = completed + pending`. -/
theorem c10_get_stats_spec (m : TaskManager) :
    m.get_stats.total = m.tasks.length ∧
    m.get_stats.completed = m.values.countP (fun t => t.completed) ∧
    m.get_stats.total = m.get_stats.completed + m.get_stats.pending := by
  refine ⟨rfl, rfl, ?_⟩
  have hle : m.values.countP (fun t => t.completed) ≤ m.tasks.length := by
    have hc := List.countP_le_length (fun t : Task => t.completed) (l := m.values)
    simpa [TaskManager.values] using hc
  simp only [TaskManager.get_stats]
  omega

end AgCodex
